import Mathlib

/-!
Shallow embedding of `cacheable` (src/cacheable/cache.py): fingerprinting via
SHA-1 over declared parameters, cache-folder resolution on a filesystem model,
and the load-or-create-then-save lifecycle.
-/

set_option linter.unusedVariables false
set_option maxRecDepth 10000

/-! ### SHA-1 (hashlib.sha1, hexdigest) -/

namespace Sha1

def mask32 : Nat := 4294967296

def rotl (n x : Nat) : Nat := ((x <<< n) ||| (x >>> (32 - n))) % mask32

/-- Split a byte list into big-endian 32-bit words (length divisible by 4). -/
def toWords : List Nat → List Nat
  | a :: b :: c :: d :: rest => (a * 16777216 + b * 65536 + c * 256 + d) :: toWords rest
  | _ => []

/-- Extend the 16-word schedule by `fuel` further words (SHA-1 message schedule). -/
def extendLoop (ws : List Nat) : Nat → List Nat
  | 0 => ws
  | f + 1 =>
    let L := ws.length
    let x := rotl 1 (((ws.getD (L - 3) 0) ^^^ (ws.getD (L - 8) 0)) ^^^
                     ((ws.getD (L - 14) 0) ^^^ (ws.getD (L - 16) 0)))
    extendLoop (ws ++ [x]) f

/-- Round function and constant for round `i`. -/
def fk (i b c d : Nat) : Nat × Nat :=
  if i < 20 then ((b &&& c) ||| ((b ^^^ 4294967295) &&& d), 1518500249)
  else if i < 40 then ((b ^^^ c) ^^^ d, 1859775393)
  else if i < 60 then (((b &&& c) ||| (b &&& d)) ||| (c &&& d), 2400959708)
  else ((b ^^^ c) ^^^ d, 3395469782)

def rounds : List Nat → Nat → Nat × Nat × Nat × Nat × Nat → Nat × Nat × Nat × Nat × Nat
  | [], _, st => st
  | w :: ws, i, (a, b, c, d, e) =>
    let (f, k) := fk i b c d
    let temp := (rotl 5 a + f + e + k + w) % mask32
    rounds ws (i + 1) (temp, a, rotl 30 b, c, d)

/-- `n` bytes of `x`, big-endian. -/
def beBytes : Nat → Nat → List Nat
  | 0, _ => []
  | k + 1, n => beBytes k (n / 256) ++ [n % 256]

/-- SHA-1 padding: 0x80, zeros to 56 mod 64, 8-byte big-endian bit length. -/
def padBytes (m : List Nat) : List Nat :=
  let L := m.length
  let padZeros := (55 + 64 - L % 64) % 64
  m ++ [128] ++ List.replicate padZeros 0 ++ beBytes 8 (L * 8)

def chunksOf64 (bytes : List Nat) : Nat → List (List Nat)
  | 0 => []
  | k + 1 => bytes.take 64 :: chunksOf64 (bytes.drop 64) k

def step (h : Nat × Nat × Nat × Nat × Nat) (block : List Nat) :
    Nat × Nat × Nat × Nat × Nat :=
  let ws := extendLoop (toWords block) 64
  let (h0, h1, h2, h3, h4) := h
  let (a, b, c, d, e) := rounds ws 0 (h0, h1, h2, h3, h4)
  ((h0 + a) % mask32, (h1 + b) % mask32, (h2 + c) % mask32, (h3 + d) % mask32,
   (h4 + e) % mask32)

def sha1Words (msg : List Nat) : List Nat :=
  let padded := padBytes msg
  let blocks := chunksOf64 padded (padded.length / 64)
  let (h0, h1, h2, h3, h4) :=
    blocks.foldl step (1732584193, 4023233417, 2562383102, 271733878, 3285377520)
  [h0, h1, h2, h3, h4]

def hexDigitChar (n : Nat) : Char := Char.ofNat (if n < 10 then 48 + n else 87 + n)

def hexFixed : Nat → Nat → List Char
  | 0, _ => []
  | k + 1, n => hexFixed k (n / 16) ++ [hexDigitChar (n % 16)]

def sha1HexBytes (msg : List Nat) : String :=
  String.mk ((sha1Words msg).foldr (fun w acc => hexFixed 8 w ++ acc) [])

/-- UTF-8 encoding of a character, as its byte values. -/
def utf8Bytes (c : Char) : List Nat :=
  let n := c.toNat
  if n < 128 then [n]
  else if n < 2048 then [192 + n / 64, 128 + n % 64]
  else if n < 65536 then [224 + n / 4096, 128 + (n / 64) % 64, 128 + n % 64]
  else [240 + n / 262144, 128 + (n / 4096) % 64, 128 + (n / 64) % 64, 128 + n % 64]

def strBytes (s : String) : List Nat :=
  s.data.foldr (fun c acc => utf8Bytes c ++ acc) []

end Sha1

/-- `hashlib.sha1(s.encode("UTF-8")).hexdigest()`. -/
def sha1Hex (s : String) : String := Sha1.sha1HexBytes (Sha1.strBytes s)

/-- Sanity anchor: the embedded SHA-1 agrees with the reference digest of the
empty string. -/
theorem sha1Hex_empty : sha1Hex "" = "da39a3ee5e6b4b0d3255bfef95601890afd80709" := by
  decide

/-- Sanity anchor: the embedded SHA-1 agrees with the reference digest of
"abc". -/
theorem sha1Hex_abc : sha1Hex "abc" = "a9993e364706816aba3e25717850c26c9cd0d89d" := by
  decide

/-! ### Parameters

A params object (`self.params`): `run_tag` plus named attributes. Attribute
values enter hashing only through `str(value)`, so each attribute is modelled
as its `str()` image. `getattr` is modelled as association-list lookup; every
claim only exercises attributes that are present, so a missing attribute
(an `AttributeError` in Python) is totalized to `""`. -/

structure Params where
  run_tag : String
  fields : List (String × String)
deriving Repr, DecidableEq

/-- `str(getattr(params, name))`. -/
def Params.get (p : Params) (name : String) : String :=
  ((p.fields.find? (fun kv => kv.1 == name)).map (fun kv => kv.2)).getD ""

/-! ### Cacheable classes

The class-level declarations: `name`, `depends_on_obj` (other Cacheable
classes), `depends_on_params` (attribute names). `clsRepr` is the string
`str(parent_cls)` interpolated by the f-string in `hash`. A mutual inductive
stands in for a class together with its tuple of parent classes. -/

mutual
inductive CacheClass : Type where
  | mk (clsRepr name : String) (dependsOnObj : CacheClasses)
       (dependsOnParams : List String)
deriving DecidableEq
inductive CacheClasses : Type where
  | nil
  | cons (head : CacheClass) (tail : CacheClasses)
deriving DecidableEq
end

def CacheClass.name : CacheClass → String
  | .mk _ n _ _ => n

def CacheClass.clsRepr : CacheClass → String
  | .mk r _ _ _ => r

def CacheClass.dependsOnParams : CacheClass → List String
  | .mk _ _ _ ps => ps

mutual
/-- `Cacheable.hash(params)` (src/cacheable/cache.py:109-121): one line per
`depends_on_obj` entry (`f"{parent_cls}: {parent_cls.hash(params)}"`), then one
line per `depends_on_params` name (`f"{param_name}: {sha1(str(value))}"`),
joined by newlines in declaration order, then SHA-1 of the joined string. -/
def CacheClass.hash (p : Params) : CacheClass → String
  | .mk _ _ objs ps =>
    let objLines := CacheClasses.hashLines p objs
    let paramLines := ps.map (fun n => n ++ ": " ++ sha1Hex (p.get n))
    sha1Hex (String.intercalate "\n" (objLines ++ paramLines))
def CacheClasses.hashLines (p : Params) : CacheClasses → List String
  | .nil => []
  | .cons c cs => (c.clsRepr ++ ": " ++ CacheClass.hash p c) :: CacheClasses.hashLines p cs
end

mutual
/-- All attribute names the fingerprint of a class reads (its own
`depends_on_params` plus, recursively, those of `depends_on_obj`). -/
def CacheClass.trackedNames : CacheClass → List String
  | .mk _ _ objs ps => CacheClasses.trackedNames objs ++ ps
def CacheClasses.trackedNames : CacheClasses → List String
  | .nil => []
  | .cons c cs => CacheClass.trackedNames c ++ CacheClasses.trackedNames cs
end

mutual
/-- The fingerprint reads only tracked attributes: params agreeing on every
tracked name (run_tag and untracked attributes free) hash identically. -/
theorem CacheClass.hash_congr (p1 p2 : Params) :
    (c : CacheClass) → (∀ n ∈ c.trackedNames, p1.get n = p2.get n) →
    CacheClass.hash p1 c = CacheClass.hash p2 c
  | .mk r nm objs ps, h => by
    have hobj : CacheClasses.hashLines p1 objs = CacheClasses.hashLines p2 objs :=
      CacheClasses.hashLines_congr p1 p2 objs (fun n hn => h n (by
        simp only [CacheClass.trackedNames, List.mem_append]; exact Or.inl hn))
    have hps : ps.map (fun n => n ++ ": " ++ sha1Hex (p1.get n)) =
        ps.map (fun n => n ++ ": " ++ sha1Hex (p2.get n)) := by
      apply List.map_congr_left
      intro n hn
      rw [h n (by simp only [CacheClass.trackedNames, List.mem_append]; exact Or.inr hn)]
    simp only [CacheClass.hash, hobj, hps]
theorem CacheClasses.hashLines_congr (p1 p2 : Params) :
    (cs : CacheClasses) → (∀ n ∈ CacheClasses.trackedNames cs, p1.get n = p2.get n) →
    CacheClasses.hashLines p1 cs = CacheClasses.hashLines p2 cs
  | .nil, _ => rfl
  | .cons c cs, h => by
    have h1 : CacheClass.hash p1 c = CacheClass.hash p2 c :=
      CacheClass.hash_congr p1 p2 c (fun n hn => h n (by
        simp only [CacheClasses.trackedNames, List.mem_append]; exact Or.inl hn))
    have h2 : CacheClasses.hashLines p1 cs = CacheClasses.hashLines p2 cs :=
      CacheClasses.hashLines_congr p1 p2 cs (fun n hn => h n (by
        simp only [CacheClasses.trackedNames, List.mem_append]; exact Or.inr hn))
    simp only [CacheClasses.hashLines, h1, h2]
end

/-! ### Filesystem model

Directories and files as absolute paths (component lists). `iterdir` order is
the order in which entries were recorded (directories first, then files);
Python's listing order is filesystem-dependent, so the model fixes one. -/

structure FS where
  dirs : List (List String)
  files : List (List String × String)
deriving Repr, DecidableEq

def FS.dirExists (fs : FS) (p : List String) : Bool := decide (p ∈ fs.dirs)

def FS.fileExists (fs : FS) (p : List String) : Bool :=
  decide (p ∈ fs.files.map (fun kv => kv.1))

def FS.pathExists (fs : FS) (p : List String) : Bool :=
  fs.dirExists p || fs.fileExists p

def FS.readFile (fs : FS) (p : List String) : Option String :=
  (fs.files.find? (fun kv => kv.1 == p)).map (fun kv => kv.2)

def FS.writeFile (fs : FS) (p : List String) (content : String) : FS :=
  { fs with files := fs.files ++ [(p, content)] }

/-- `Path.mkdir(parents=True, exist_ok=True)`: record every missing prefix. -/
def FS.mkdirParents (fs : FS) (p : List String) : FS :=
  let prefixes := (List.range p.length).map (fun i => p.take (i + 1))
  { fs with dirs := fs.dirs ++ prefixes.filter (fun q => !fs.dirs.contains q) }

/-- Name of `d` when it is an immediate child of `p`, else `none`. -/
def childName (p d : List String) : Option String :=
  if d.length == p.length + 1 && d.take p.length == p then
    some (d.getLastD "")
  else none

/-- `object_folder.iterdir()`: names of immediate children (dirs, then files). -/
def FS.listDirNames (fs : FS) (p : List String) : List String :=
  fs.dirs.filterMap (childName p) ++ fs.files.filterMap (fun kv => childName p kv.1)

/-! ### Folder-name matching

`re.match(rf"{name}_(.*_)?{hash}", folder.name)` with `name` and `hash`
treated as literal text (the hash is hex; the names in the repository carry no
regex metacharacters). `re.match` anchors the start only, so trailing
characters after the pattern are accepted; `.` matches any character except a
newline. -/

/-- Backtracking for `(.*_)`: some nonempty newline-free prefix ending in `_`,
followed by `hashCs`. -/
def dotStarUnderscoreThen (hashCs : List Char) : List Char → Bool
  | [] => false
  | c :: rest =>
    c != '\n' && ((c == '_' && hashCs.isPrefixOf rest)
      || dotStarUnderscoreThen hashCs rest)

/-- Whether `re.match(rf"{name}_(.*_)?{hash}", s)` succeeds. -/
def reMatchFolder (name hash s : String) : Bool :=
  let cs := s.data
  let pre := (name ++ "_").data
  pre.isPrefixOf cs &&
    (let r := cs.drop pre.length
     hash.data.isPrefixOf r || dotStarUnderscoreThen hash.data r)

/-! ### Configuration

`CACHE_FOLDER` as resolved by `cache_folder`: `os.environ` first, then `.env`,
then `example.env` (`{**dotenv_values("example.env"), **dotenv_values(".env")}`
merged under `os.environ.get(..., config.get(...))`). -/

structure Config where
  envCacheFolder : Option String
  dotenvCacheFolder : Option String
  exampleEnvCacheFolder : Option String
deriving Repr, DecidableEq

def Config.cacheRoot? (c : Config) : Option String :=
  match c.envCacheFolder with
  | some v => some v
  | none =>
    match c.dotenvCacheFolder with
    | some v => some v
    | none => c.exampleEnvCacheFolder

/-! ### Cache-folder resolution -/

/-- Errors surfaced by the embedded operations, mirroring the Python
exception classes that `cache.py` raises or catches. -/
inductive PyErr : Type where
  | valueError (msg : String)
  | fileNotFoundError (msg : String)
  | otherError (msg : String)
deriving Repr, DecidableEq

def pathStr (p : List String) : String := String.intercalate "/" p

instance instDecEqExcept {ε α : Type} [DecidableEq ε] [DecidableEq α] :
    DecidableEq (Except ε α) := fun a b =>
  match a, b with
  | .ok x, .ok y =>
    if h : x = y then .isTrue (by rw [h]) else .isFalse (by simp [h])
  | .error x, .error y =>
    if h : x = y then .isTrue (by rw [h]) else .isFalse (by simp [h])
  | .ok _, .error _ => .isFalse (by simp)
  | .error _, .ok _ => .isFalse (by simp)

/-- `Cacheable.find_cache_folder(object_folder)` (cache.py:123-135): `False`
(here `none`) when the object folder does not exist, else the first entry
matching the pattern, as a path. -/
def find_cache_folder (cls : CacheClass) (p : Params) (fs : FS)
    (objectFolder : List String) : Option (List String) :=
  if !fs.dirExists objectFolder then none
  else
    ((fs.listDirNames objectFolder).find?
        (fun entry => reMatchFolder cls.name (CacheClass.hash p cls) entry)).map
      (fun entry => objectFolder ++ [entry])

/-- The folder name synthesized on a miss (cache.py:92-97):
`name` + (`_run_tag` if `len(run_tag) > 0`) + `_hash`. -/
def newFolderName (cls : CacheClass) (p : Params) : String :=
  let nameComponents :=
    [cls.name] ++ (if p.run_tag.length > 0 then [p.run_tag] else [])
      ++ [CacheClass.hash p cls]
  String.intercalate "_" nameComponents

/-- `params_to_json(self.params, path)`: serialized snapshot of the whole
params object (dataclass JSON dump); the exact rendering is irrelevant to the
claims, a canonical one is fixed here. -/
def paramsToJson (p : Params) : String :=
  "run_tag: " ++ p.run_tag ++ ", " ++
    String.intercalate ", " (p.fields.map (fun kv => kv.1 ++ ": " ++ kv.2))

/-- The `Cacheable.cache_folder` property (cache.py:73-107): read
`CACHE_FOLDER` (raise `ValueError` when unset), return an existing matching
folder if any, else create `<name>[_<run_tag>]_<hash>` (with parents), write
`params.json` when absent, and return the new path. -/
def cache_folder (cfg : Config) (cls : CacheClass) (p : Params) (fs : FS) :
    Except PyErr (List String × FS) :=
  match cfg.cacheRoot? with
  | none => .error (.valueError "CACHE_FOLDER is not set in .env file")
  | some root =>
    let objectFolder := [root, cls.name]
    match find_cache_folder cls p fs objectFolder with
    | some folder => .ok (folder, fs)
    | none =>
      let path := objectFolder ++ [newFolderName cls p]
      let fs1 := fs.mkdirParents path
      let paramCachePath := path ++ ["params.json"]
      let fs2 :=
        if fs1.fileExists paramCachePath then fs1
        else fs1.writeFile paramCachePath (paramsToJson p)
      .ok (path, fs2)

/-! ### Lifecycle

The abstract methods of the ABC (`create`, `load_from_file`, `save`) as a
record of functions; `compute`, `load` and `__init__` orchestrate them. `γ` is
the type of the positional `*args` that `compute` forwards to `create`; the
keyword arguments are the `(param_name, value)` pairs selected from
`depends_on_params`. `save` receives the resolved folder (the subclasses in
the repository write their payload file under `self.cache_folder`). -/

structure Impl (γ α : Type) where
  create : γ → List (String × String) → α
  loadFromFile : FS → List String → Except PyErr α
  save : FS → List String → α → FS

/-- The keyword arguments `compute` builds:
`{param_name: getattr(self.params, param_name) for param_name in depends_on_params}`. -/
def kwargsOf (cls : CacheClass) (p : Params) : List (String × String) :=
  cls.dependsOnParams.map (fun n => (n, p.get n))

/-- `Cacheable.compute(*args)` (cache.py:46-71): resolve the folder; if it
exists, try `load_from_file`, catching only `FileNotFoundError`; otherwise (or
on that error) call `create(*args, **kwargs)` and `save()`. Any other
exception propagates. -/
def compute {γ α : Type} (cfg : Config) (cls : CacheClass) (impl : Impl γ α)
    (p : Params) (args : γ) (fs : FS) : Except PyErr (α × FS) :=
  match cache_folder cfg cls p fs with
  | .error e => .error e
  | .ok (path, fs1) =>
    let runCreate : Except PyErr (α × FS) :=
      let obj := impl.create args (kwargsOf cls p)
      .ok (obj, impl.save fs1 path obj)
    if fs1.pathExists path then
      match impl.loadFromFile fs1 path with
      | .ok obj => .ok (obj, fs1)
      | .error (.fileNotFoundError _) => runCreate
      | .error e => .error e
    else runCreate

/-- `Cacheable.load()` (cache.py:171-179): resolve the folder, call
`load_from_file`; re-raise `FileNotFoundError` with the "run compute() first"
message; anything else propagates. Never calls `create`. -/
def load {γ α : Type} (cfg : Config) (cls : CacheClass) (impl : Impl γ α)
    (p : Params) (fs : FS) : Except PyErr (α × FS) :=
  match cache_folder cfg cls p fs with
  | .error e => .error e
  | .ok (path, fs1) =>
    match impl.loadFromFile fs1 path with
    | .ok obj => .ok (obj, fs1)
    | .error (.fileNotFoundError _) =>
      .error (.fileNotFoundError
        ("File " ++ pathStr path ++ " does not exist. Please run compute() first."))
    | .error e => .error e

/-- `Cacheable.__init__(params)` (cache.py:41-44): stores the params and
evaluates the `cache_folder` property for its side effects
(`_ = self.cache_folder`). -/
def initCacheable (cfg : Config) (cls : CacheClass) (p : Params) (fs : FS) :
    Except PyErr FS :=
  match cache_folder cfg cls p fs with
  | .error e => .error e
  | .ok (_, fs1) => .ok fs1

/-! ### File-based implementations

The concrete subclasses in the repository store their payload as a single
file inside the cache folder (`A.txt`, `B.csv`, ...): `save` encodes the
payload into that file, `load_from_file` reads and decodes it, raising
`FileNotFoundError` when the file is absent. -/

structure FileImpl (γ α : Type) where
  create : γ → List (String × String) → α
  payloadFile : String
  enc : α → String
  dec : String → Except PyErr α

def FileImpl.toImpl {γ α : Type} (fi : FileImpl γ α) : Impl γ α where
  create := fi.create
  loadFromFile := fun fs path =>
    match fs.readFile (path ++ [fi.payloadFile]) with
    | none => .error (.fileNotFoundError (pathStr (path ++ [fi.payloadFile])))
    | some s => fi.dec s
  save := fun fs path obj => fs.writeFile (path ++ [fi.payloadFile]) (fi.enc obj)

/-! ### Lemmas about the filesystem model -/

theorem FS.dirs_writeFile (fs : FS) (p : List String) (c : String) :
    (fs.writeFile p c).dirs = fs.dirs := rfl

theorem FS.files_mkdirParents (fs : FS) (p : List String) :
    (fs.mkdirParents p).files = fs.files := rfl

theorem FS.dirExists_writeFile (fs : FS) (q : List String) (c : String)
    (p : List String) : (fs.writeFile q c).dirExists p = fs.dirExists p := rfl

theorem FS.fileExists_mkdirParents (fs : FS) (q p : List String) :
    (fs.mkdirParents q).fileExists p = fs.fileExists p := rfl

theorem FS.readFile_mkdirParents (fs : FS) (q p : List String) :
    (fs.mkdirParents q).readFile p = fs.readFile p := rfl

theorem FS.dirExists_iff (fs : FS) (p : List String) :
    fs.dirExists p = true ↔ p ∈ fs.dirs := by
  simp [FS.dirExists]

theorem FS.fileExists_iff (fs : FS) (p : List String) :
    fs.fileExists p = true ↔ p ∈ fs.files.map (fun kv => kv.1) := by
  simp [FS.fileExists]

theorem FS.dirExists_mkdirParents_take (fs : FS) (p : List String) (k : Nat)
    (hk : 0 < k) (hkp : k ≤ p.length) :
    (fs.mkdirParents p).dirExists (p.take k) = true := by
  rw [FS.dirExists_iff]
  simp only [FS.mkdirParents, List.mem_append]
  by_cases h : p.take k ∈ fs.dirs
  · exact Or.inl h
  · refine Or.inr ?_
    rw [List.mem_filter]
    constructor
    · rw [List.mem_map]
      exact ⟨k - 1, by rw [List.mem_range]; omega, by congr 1; omega⟩
    · simpa [List.contains_iff_exists_mem_beq, beq_iff_eq] using h

theorem FS.dirExists_mkdirParents_self (fs : FS) (p : List String)
    (h : p ≠ []) : (fs.mkdirParents p).dirExists p = true := by
  have hlen : 0 < p.length := List.length_pos.mpr h
  have := FS.dirExists_mkdirParents_take fs p p.length hlen (Nat.le_refl _)
  rwa [List.take_length] at this

theorem FS.dirExists_mkdirParents_mono (fs : FS) (q p : List String)
    (h : fs.dirExists p = true) : (fs.mkdirParents q).dirExists p = true := by
  rw [FS.dirExists_iff] at h ⊢
  simp only [FS.mkdirParents, List.mem_append]
  exact Or.inl h

theorem FS.fileExists_writeFile_self (fs : FS) (p : List String) (c : String) :
    (fs.writeFile p c).fileExists p = true := by
  rw [FS.fileExists_iff]
  simp [FS.writeFile]

theorem FS.find?_files_eq_none (fs : FS) (p : List String)
    (h : fs.fileExists p = false) :
    fs.files.find? (fun kv => kv.1 == p) = none := by
  rw [List.find?_eq_none]
  intro kv hkv
  simp only [beq_iff_eq]
  intro hk
  rw [Bool.eq_false_iff] at h
  exact h (FS.fileExists_iff fs p |>.mpr (List.mem_map.mpr ⟨kv, hkv, hk⟩))

theorem FS.readFile_eq_none (fs : FS) (p : List String)
    (h : fs.fileExists p = false) : fs.readFile p = none := by
  rw [FS.readFile, FS.find?_files_eq_none fs p h, Option.map_none']

theorem FS.readFile_writeFile_self (fs : FS) (p : List String) (c : String)
    (h : fs.fileExists p = false) : (fs.writeFile p c).readFile p = some c := by
  simp only [FS.readFile, FS.writeFile, List.find?_append,
    FS.find?_files_eq_none fs p h, Option.none_or]
  simp

theorem FS.readFile_writeFile_other (fs : FS) (q p : List String) (c : String)
    (h : q ≠ p) : (fs.writeFile q c).readFile p = fs.readFile p := by
  simp only [FS.readFile, FS.writeFile, List.find?_append]
  have hqp : (q == p) = false := beq_false_of_ne h
  have : List.find? (fun kv => kv.1 == p) [(q, c)] = none := by
    simp [List.find?, hqp]
  rw [this, Option.or_none]

theorem childName_append (p : List String) (x : String) :
    childName p (p ++ [x]) = some x := by
  simp [childName, List.take_left' rfl, List.getLastD_concat]

theorem childName_eq_some (p d : List String) (x : String)
    (h : childName p d = some x) : d = p ++ [x] := by
  simp only [childName] at h
  split at h
  · next hcond =>
    simp only [Bool.and_eq_true, beq_iff_eq] at hcond
    obtain ⟨hlen, htake⟩ := hcond
    have hx := Option.some.inj h
    have hd : d = d.take p.length ++ d.drop p.length := (List.take_append_drop _ _).symm
    have hdroplen : (d.drop p.length).length = 1 := by
      rw [List.length_drop, hlen]; omega
    obtain ⟨y, hy⟩ : ∃ y, d.drop p.length = [y] := by
      cases hdrop : d.drop p.length with
      | nil => rw [hdrop] at hdroplen; simp at hdroplen
      | cons a l =>
        rw [hdrop] at hdroplen
        simp only [List.length_cons] at hdroplen
        have : l = [] := List.length_eq_zero.mp (by omega)
        exact ⟨a, by rw [this]⟩
    rw [htake, hy] at hd
    subst hx
    rw [hd, List.getLastD_concat]
  · exact absurd h (by simp)

theorem listDirNames_writeFile (fs : FS) (q : List String) (c : String)
    (p : List String) (h : childName p q = none) :
    (fs.writeFile q c).listDirNames p = fs.listDirNames p := by
  simp [FS.listDirNames, FS.writeFile, List.filterMap_append, h]

theorem childName_eq_none_of_length (p d : List String)
    (h : d.length ≠ p.length + 1) : childName p d = none := by
  have hb : (d.length == p.length + 1) = false := by
    simp only [beq_eq_false_iff_ne, ne_eq]; exact h
  simp [childName, hb]

theorem listDirNames_mkdirParents_child (fs : FS) (objF : List String) (fn : String)
    (h : (objF ++ [fn]) ∉ fs.dirs) :
    (fs.mkdirParents (objF ++ [fn])).listDirNames objF =
      fs.dirs.filterMap (childName objF) ++ [fn]
        ++ fs.files.filterMap (fun kv => childName objF kv.1) := by
  have hlen : (objF ++ [fn]).length = objF.length + 1 := by simp
  simp only [FS.listDirNames, FS.mkdirParents, List.filterMap_append]
  rw [hlen, List.range_succ, List.map_append, List.filter_append,
    List.filterMap_append]
  have hwhole : (objF ++ [fn]).take (objF.length + 1) = objF ++ [fn] := by
    apply List.take_of_length_le
    omega
  have hmapsing : [objF.length].map (fun i => (objF ++ [fn]).take (i + 1)) =
      [objF ++ [fn]] := by simp [hwhole]
  have hfiltersing :
      List.filter (fun q => !fs.dirs.contains q) [objF ++ [fn]] = [objF ++ [fn]] := by
    simp [List.filter, h]
  have hshort : List.filterMap (childName objF)
      (List.filter (fun q => !fs.dirs.contains q)
        ((List.range objF.length).map (fun i => (objF ++ [fn]).take (i + 1)))) = [] := by
    rw [List.filterMap_eq_nil_iff]
    intro a ha
    have ha' := (List.mem_filter.mp ha).1
    obtain ⟨i, hi, rfl⟩ := List.mem_map.mp ha'
    rw [List.mem_range] at hi
    apply childName_eq_none_of_length
    rw [List.length_take]
    omega
  rw [hmapsing, hfiltersing, hshort, List.filterMap_cons]
  rw [childName_append]
  simp

/-! ### Lemmas about folder-name matching -/

theorem intercalate_two (sep a b : String) :
    String.intercalate sep [a, b] = a ++ sep ++ b := rfl

theorem intercalate_three (sep a b c : String) :
    String.intercalate sep [a, b, c] = a ++ sep ++ b ++ sep ++ c := rfl

theorem dotStar_hits (hs l : List Char) (hpre : hs.isPrefixOf l = true) :
    ∀ t : List Char, (∀ c ∈ t, c ≠ '\n') →
      dotStarUnderscoreThen hs (t ++ '_' :: l) = true := by
  intro t
  induction t with
  | nil =>
    intro _
    simp [dotStarUnderscoreThen, hpre]
  | cons c t' ih =>
    intro h
    have hc : (c != '\n') = true := bne_iff_ne.mpr (h c (by simp))
    simp only [List.cons_append, dotStarUnderscoreThen, List.append_eq]
    rw [ih (fun x hx => h x (by simp [hx]))]
    simp [hc]

/-- The folder name synthesized on a miss is matched by the pattern used
during resolution, as long as the run tag contains no newline (`.` in the
pattern does not match a newline). -/
theorem reMatch_newFolderName (cls : CacheClass) (p : Params)
    (htag : ∀ c ∈ p.run_tag.data, c ≠ '\n') :
    reMatchFolder cls.name (CacheClass.hash p cls) (newFolderName cls p) = true := by
  by_cases h : p.run_tag.length > 0
  · have hfold : newFolderName cls p =
        (cls.name ++ "_") ++ (p.run_tag ++ ("_" ++ CacheClass.hash p cls)) := by
      simp only [newFolderName, h, if_pos]
      rw [show [cls.name] ++ [p.run_tag] ++ [CacheClass.hash p cls] =
        [cls.name, p.run_tag, CacheClass.hash p cls] by rfl]
      rw [intercalate_three, String.append_assoc, String.append_assoc,
        String.append_assoc]
    simp only [reMatchFolder, hfold, Bool.and_eq_true, Bool.or_eq_true]
    have hdata : ((cls.name ++ "_") ++ (p.run_tag ++ ("_" ++ CacheClass.hash p cls))).data
        = (cls.name ++ "_").data ++ (p.run_tag.data ++ '_' :: (CacheClass.hash p cls).data) := by
      simp
    rw [hdata]
    constructor
    · exact List.isPrefixOf_iff_prefix.mpr (List.prefix_append _ _)
    · rw [List.drop_left]
      right
      exact dotStar_hits _ _ (List.isPrefixOf_iff_prefix.mpr (List.prefix_refl _))
        p.run_tag.data htag
  · have htag0 : p.run_tag.length = 0 := by omega
    have hfold : newFolderName cls p = (cls.name ++ "_") ++ CacheClass.hash p cls := by
      simp only [newFolderName, htag0, gt_iff_lt, Nat.lt_irrefl, if_false]
      rw [show [cls.name] ++ ([] : List String) ++ [CacheClass.hash p cls] =
        [cls.name, CacheClass.hash p cls] by rfl]
      rw [intercalate_two, String.append_assoc]
    simp only [reMatchFolder, hfold, Bool.and_eq_true, Bool.or_eq_true]
    have hdata : ((cls.name ++ "_") ++ CacheClass.hash p cls).data
        = (cls.name ++ "_").data ++ (CacheClass.hash p cls).data := by simp
    rw [hdata]
    constructor
    · exact List.isPrefixOf_iff_prefix.mpr (List.prefix_append _ _)
    · rw [List.drop_left]
      left
      exact List.isPrefixOf_iff_prefix.mpr (List.prefix_refl _)

/-! ### Lemmas about resolution -/

theorem find_cache_folder_hash_congr (cls : CacheClass) (p1 p2 : Params)
    (fs : FS) (objF : List String)
    (hh : CacheClass.hash p1 cls = CacheClass.hash p2 cls) :
    find_cache_folder cls p1 fs objF = find_cache_folder cls p2 fs objF := by
  simp only [find_cache_folder, hh]

theorem find_cache_folder_eq_none (cls : CacheClass) (p : Params) (fs : FS)
    (objF : List String)
    (hclean : ∀ e ∈ fs.listDirNames objF,
      reMatchFolder cls.name (CacheClass.hash p cls) e = false) :
    find_cache_folder cls p fs objF = none := by
  simp only [find_cache_folder]
  split
  · rfl
  · rw [List.find?_eq_none.mpr (fun e he => by simp [hclean e he]), Option.map_none']

theorem find_cache_folder_path_exists (cls : CacheClass) (p : Params) (fs : FS)
    (objF f : List String)
    (h : find_cache_folder cls p fs objF = some f) : fs.pathExists f = true := by
  simp only [find_cache_folder] at h
  split at h
  · exact absurd h (by simp)
  · obtain ⟨entry, hfind, hf⟩ := Option.map_eq_some'.mp h
    have hmem := List.mem_of_find?_eq_some hfind
    simp only [FS.listDirNames, List.mem_append] at hmem
    rw [FS.pathExists]
    cases hmem with
    | inl hd =>
      obtain ⟨d, hd', hcn⟩ := List.mem_filterMap.mp hd
      have := childName_eq_some _ _ _ hcn
      rw [← hf, ← this]
      have : fs.dirExists d = true := (FS.dirExists_iff fs d).mpr hd'
      simp [this]
    | inr hfil =>
      obtain ⟨kv, hkv, hcn⟩ := List.mem_filterMap.mp hfil
      have := childName_eq_some _ _ _ hcn
      rw [← hf, ← this]
      have : fs.fileExists kv.1 = true :=
        (FS.fileExists_iff fs kv.1).mpr (List.mem_map.mpr ⟨kv, hkv, rfl⟩)
      simp [this]

/-! ### Concrete instances used by witnesses and counterexamples -/

namespace Fixture

/-- A class tracking params `a` then `b`, in that declaration order. -/
def clsAB : CacheClass := .mk "<class A>" "A" .nil ["a", "b"]

/-- The same tracked-field set as `clsAB`, declared in the opposite order. -/
def clsBA : CacheClass := .mk "<class A>" "A" .nil ["b", "a"]

/-- A class tracking the single param `a`. -/
def clsA1 : CacheClass := .mk "<class A>" "A" .nil ["a"]

/-- A class with an empty tracked-field set. -/
def clsE : CacheClass := .mk "<class A>" "A" .nil []

def pAB : Params := ⟨"tag", [("a", "0"), ("b", "1")]⟩

/-- A file-based implementation over string payloads. -/
def fiS : FileImpl Unit String :=
  { create := fun _ kw => String.intercalate "," (kw.map (fun kv => kv.1 ++ "=" ++ kv.2))
    payloadFile := "A.txt"
    enc := fun s => s
    dec := fun s => .ok s }

def implS : Impl Unit String := fiS.toImpl

def cfgR : Config := ⟨some "root", none, none⟩

def cfg0 : Config := ⟨none, none, none⟩

def fs0 : FS := ⟨[], []⟩

/-- A cache state holding a folder for `clsE`'s fingerprint under tag `x`. -/
def fsC2 : FS :=
  ⟨[["root", "A"], ["root", "A", "A_x_" ++ sha1Hex ""]], []⟩

/-- An entry whose name continues past the fingerprint. -/
def badEntry : String := "A_" ++ sha1Hex "" ++ "xyz"

def fsC4 : FS := ⟨[["root", "A"], ["root", "A", badEntry]], []⟩

end Fixture

/-! ### The claims -/

/-- C1, counterexample: two classes with the same set of tracked-field names
(`a`, `b`) and the same values, differing only in declaration order, produce
different fingerprints — contributions are not sorted by field name. -/
theorem C1_counterexample :
    CacheClass.hash Fixture.pAB Fixture.clsAB ≠
      CacheClass.hash Fixture.pAB Fixture.clsBA := by decide

/-- C1 (amended): contributions are joined in declaration order, not sorted,
so the fingerprint is a function of the declared sequence of tracked fields
and their values: for a fixed class, any two params agreeing on every tracked
field (whatever their run tags or untracked attributes) fingerprint
identically, while reordering the declaration can change the fingerprint. -/
theorem C1_fingerprint_declaration_order (c : CacheClass) (p1 p2 : Params)
    (h : ∀ n ∈ c.trackedNames, p1.get n = p2.get n) :
    CacheClass.hash p1 c = CacheClass.hash p2 c :=
  CacheClass.hash_congr p1 p2 c h

theorem C1_fingerprint_declaration_order_witness :
    (∀ n ∈ Fixture.clsA1.trackedNames,
      (Params.mk "t1" [("a", "0")]).get n = (Params.mk "t2" [("a", "0"), ("x", "z")]).get n) ∧
    CacheClass.hash (Params.mk "t1" [("a", "0")]) Fixture.clsA1
      = CacheClass.hash (Params.mk "t2" [("a", "0"), ("x", "z")]) Fixture.clsA1 :=
  ⟨by decide, C1_fingerprint_declaration_order Fixture.clsA1 _ _ (by decide)⟩

/-- C9: a class with no `depends_on_obj` and no `depends_on_params` hashes to
the digest of the empty string, whatever the params value. -/
theorem C9_empty_tracked_set_digest (r n : String) (p : Params) :
    CacheClass.hash p (.mk r n .nil []) = sha1Hex "" := rfl

/-- C8: with `CACHE_FOLDER` absent from the environment and both settings
files, constructing an instance, `compute()` and `load()` all fail at once
with the configuration `ValueError`, for every filesystem state — no folder
matching or creation is attempted. -/
theorem C8_missing_config {γ α : Type} (cfg : Config) (cls : CacheClass)
    (impl : Impl γ α) (p : Params) (args : γ) (fs : FS)
    (h : cfg.cacheRoot? = none) :
    initCacheable cfg cls p fs
        = .error (.valueError "CACHE_FOLDER is not set in .env file") ∧
    compute cfg cls impl p args fs
        = .error (.valueError "CACHE_FOLDER is not set in .env file") ∧
    load cfg cls impl p fs
        = .error (.valueError "CACHE_FOLDER is not set in .env file") := by
  have hcf : cache_folder cfg cls p fs
      = .error (.valueError "CACHE_FOLDER is not set in .env file") := by
    simp [cache_folder, h]
  exact ⟨by simp [initCacheable, hcf], by simp [compute, hcf], by simp [load, hcf]⟩

theorem C8_missing_config_witness :
    Fixture.cfg0.cacheRoot? = none ∧
    initCacheable Fixture.cfg0 Fixture.clsE (Params.mk "" []) Fixture.fs0
      = .error (.valueError "CACHE_FOLDER is not set in .env file") :=
  ⟨rfl, (C8_missing_config Fixture.cfg0 Fixture.clsE Fixture.implS
    (Params.mk "" []) () Fixture.fs0 rfl).1⟩

/-- C2: once a matching folder exists under `<cacheRoot>/<name>/`, resolution
returns that folder for any params with the same tracked-field values,
whatever their run tags — the run tag has no influence on a cache hit. -/
theorem C2_tag_insensitive_resolution (cfg : Config) (root : String)
    (cls : CacheClass) (p1 p2 : Params) (fs : FS) (f : List String)
    (hroot : cfg.cacheRoot? = some root)
    (hagree : ∀ n ∈ cls.trackedNames, p1.get n = p2.get n)
    (hfound : find_cache_folder cls p1 fs [root, cls.name] = some f) :
    cache_folder cfg cls p1 fs = .ok (f, fs) ∧
    cache_folder cfg cls p2 fs = .ok (f, fs) := by
  have hh := CacheClass.hash_congr p1 p2 cls hagree
  have hfound2 : find_cache_folder cls p2 fs [root, cls.name] = some f := by
    rw [← find_cache_folder_hash_congr cls p1 p2 fs _ hh]
    exact hfound
  constructor
  · simp [cache_folder, hroot, hfound]
  · simp [cache_folder, hroot, hfound2]

theorem C2_tag_insensitive_resolution_witness :
    Fixture.cfgR.cacheRoot? = some "root" ∧
    (∀ n ∈ Fixture.clsE.trackedNames,
      (Params.mk "t1" []).get n = (Params.mk "" []).get n) ∧
    find_cache_folder Fixture.clsE (Params.mk "t1" []) Fixture.fsC2 ["root", "A"]
      = some ["root", "A", "A_x_" ++ sha1Hex ""] ∧
    cache_folder Fixture.cfgR Fixture.clsE (Params.mk "t1" []) Fixture.fsC2
      = .ok (["root", "A", "A_x_" ++ sha1Hex ""], Fixture.fsC2) ∧
    cache_folder Fixture.cfgR Fixture.clsE (Params.mk "" []) Fixture.fsC2
      = .ok (["root", "A", "A_x_" ++ sha1Hex ""], Fixture.fsC2) := by
  have h := C2_tag_insensitive_resolution Fixture.cfgR "root" Fixture.clsE
    (Params.mk "t1" []) (Params.mk "" []) Fixture.fsC2
    ["root", "A", "A_x_" ++ sha1Hex ""] rfl (by decide) (by decide)
  exact ⟨rfl, by decide, by decide, h.1, h.2⟩

/-- C4: the matcher accepts a folder whose name continues past the
fingerprint (`re.match` anchors only the start of the pattern), so an entry
`A_<fingerprint>xyz` is returned as a cache hit, contradicting the claim (and
the function's own documentation) that the fingerprint must match exactly at
the end of the name. -/
theorem C4_trailing_characters_accepted :
    reMatchFolder Fixture.clsE.name
        (CacheClass.hash (Params.mk "t" []) Fixture.clsE) Fixture.badEntry = true ∧
    find_cache_folder Fixture.clsE (Params.mk "t" []) Fixture.fsC4 ["root", "A"]
      = some ["root", "A", Fixture.badEntry] := by decide

/-- C5: on a resolution miss the new folder is named
`<name>[_<runTag>]_<fingerprint>` (the tag joined only when non-empty), the
directory is created with its parents, and a `params.json` snapshot of the
parameters is written into it. -/
theorem C5_new_folder_synthesis (cfg : Config) (root : String)
    (cls : CacheClass) (p : Params) (fs : FS)
    (hroot : cfg.cacheRoot? = some root)
    (hmiss : find_cache_folder cls p fs [root, cls.name] = none)
    (hnopj : fs.fileExists ([root, cls.name, newFolderName cls p]
      ++ ["params.json"]) = false) :
    ∃ fs2 : FS,
      cache_folder cfg cls p fs = .ok ([root, cls.name, newFolderName cls p], fs2) ∧
      fs2.dirExists [root, cls.name, newFolderName cls p] = true ∧
      fs2.readFile ([root, cls.name, newFolderName cls p] ++ ["params.json"])
        = some (paramsToJson p) ∧
      newFolderName cls p = cls.name
        ++ (if p.run_tag.length > 0 then "_" ++ p.run_tag else "")
        ++ "_" ++ CacheClass.hash p cls := by
  have hnopj1 : (fs.mkdirParents [root, cls.name, newFolderName cls p]).fileExists
      [root, cls.name, newFolderName cls p, "params.json"] = false := by
    rw [FS.fileExists_mkdirParents]
    exact hnopj
  refine ⟨(fs.mkdirParents [root, cls.name, newFolderName cls p]).writeFile
    [root, cls.name, newFolderName cls p, "params.json"] (paramsToJson p),
    ?_, ?_, ?_, ?_⟩
  · simp only [cache_folder, hroot, hmiss, List.cons_append, List.nil_append]
    rw [hnopj1]
    simp
  · rw [FS.dirExists_writeFile]
    exact FS.dirExists_mkdirParents_self _ _ (by simp)
  · exact FS.readFile_writeFile_self _ _ _ hnopj1
  · by_cases h : p.run_tag.length > 0
    · simp only [newFolderName, h, if_pos]
      rw [show [cls.name] ++ [p.run_tag] ++ [CacheClass.hash p cls]
        = [cls.name, p.run_tag, CacheClass.hash p cls] from rfl]
      rw [intercalate_three, String.append_assoc cls.name "_" p.run_tag]
    · have htag0 : (p.run_tag.length > 0) = False := by simp; omega
      simp only [newFolderName, htag0, if_false]
      rw [show [cls.name] ++ ([] : List String) ++ [CacheClass.hash p cls]
        = [cls.name, CacheClass.hash p cls] from rfl]
      rw [intercalate_two]
      congr 1
      · rw [String.append_empty]

theorem C5_new_folder_synthesis_witness :
    Fixture.cfgR.cacheRoot? = some "root" ∧
    find_cache_folder Fixture.clsA1 (Params.mk "tg" [("a", "0")]) Fixture.fs0
      ["root", "A"] = none ∧
    Fixture.fs0.fileExists (["root", "A",
      newFolderName Fixture.clsA1 (Params.mk "tg" [("a", "0")])]
      ++ ["params.json"]) = false ∧
    (∃ fs2 : FS,
      cache_folder Fixture.cfgR Fixture.clsA1 (Params.mk "tg" [("a", "0")]) Fixture.fs0
        = .ok (["root", "A",
            newFolderName Fixture.clsA1 (Params.mk "tg" [("a", "0")])], fs2) ∧
      fs2.dirExists ["root", "A",
        newFolderName Fixture.clsA1 (Params.mk "tg" [("a", "0")])] = true ∧
      fs2.readFile (["root", "A",
        newFolderName Fixture.clsA1 (Params.mk "tg" [("a", "0")])] ++ ["params.json"])
        = some (paramsToJson (Params.mk "tg" [("a", "0")])) ∧
      newFolderName Fixture.clsA1 (Params.mk "tg" [("a", "0")])
        = Fixture.clsA1.name
          ++ (if (Params.mk "tg" [("a", "0")]).run_tag.length > 0
              then "_" ++ (Params.mk "tg" [("a", "0")]).run_tag else "")
          ++ "_" ++ CacheClass.hash (Params.mk "tg" [("a", "0")]) Fixture.clsA1) :=
  ⟨rfl, by decide, by decide,
    C5_new_folder_synthesis Fixture.cfgR "root" Fixture.clsA1
      (Params.mk "tg" [("a", "0")]) Fixture.fs0 rfl (by decide) (by decide)⟩

/-- C10: `__init__` already performs the resolution side effects: when it
returns successfully the resolved folder exists on disk, and when no folder
matched beforehand the newly created folder holds a `params.json` snapshot. -/
theorem C10_init_resolves_eagerly (cfg : Config) (root : String)
    (cls : CacheClass) (p : Params) (fs : FS) (path : List String) (fs1 : FS)
    (hroot : cfg.cacheRoot? = some root)
    (hok : cache_folder cfg cls p fs = .ok (path, fs1)) :
    initCacheable cfg cls p fs = .ok fs1 ∧
    fs1.pathExists path = true ∧
    (find_cache_folder cls p fs [root, cls.name] = none →
      fs1.dirExists path = true ∧
      fs1.fileExists (path ++ ["params.json"]) = true) := by
  refine ⟨by simp [initCacheable, hok], ?_⟩
  simp only [cache_folder, hroot] at hok
  split at hok
  · next f heq =>
    have h2 := Except.ok.inj hok
    simp only [Prod.mk.injEq] at h2
    obtain ⟨hpath, hfs⟩ := h2
    subst hpath
    subst hfs
    refine ⟨find_cache_folder_path_exists cls p fs _ _ heq, ?_⟩
    intro hnone
    rw [heq] at hnone
    exact absurd hnone (by simp)
  · next heq =>
    have h2 := Except.ok.inj hok
    simp only [Prod.mk.injEq] at h2
    obtain ⟨hpath, hfs⟩ := h2
    subst hpath
    subst hfs
    have hdir1 : (fs.mkdirParents ([root, cls.name] ++ [newFolderName cls p])).dirExists
        ([root, cls.name] ++ [newFolderName cls p]) = true :=
      FS.dirExists_mkdirParents_self _ _ (by simp)
    have hdir : (if (fs.mkdirParents ([root, cls.name] ++ [newFolderName cls p])).fileExists
          (([root, cls.name] ++ [newFolderName cls p]) ++ ["params.json"]) = true
        then fs.mkdirParents ([root, cls.name] ++ [newFolderName cls p])
        else (fs.mkdirParents ([root, cls.name] ++ [newFolderName cls p])).writeFile
          (([root, cls.name] ++ [newFolderName cls p]) ++ ["params.json"])
          (paramsToJson p)).dirExists ([root, cls.name] ++ [newFolderName cls p])
        = true := by
      split
      · exact hdir1
      · rw [FS.dirExists_writeFile]
        exact hdir1
    refine ⟨by rw [FS.pathExists]; rw [hdir]; rfl, fun _ => ⟨hdir, ?_⟩⟩
    split
    · next hpj => exact hpj
    · exact FS.fileExists_writeFile_self _ _ _

def Fixture.resC10 : List String × FS :=
  match cache_folder Fixture.cfgR Fixture.clsA1 (Params.mk "" [("a", "0")]) Fixture.fs0 with
  | .ok r => r
  | .error _ => ([], Fixture.fs0)

theorem C10_init_resolves_eagerly_witness :
    Fixture.cfgR.cacheRoot? = some "root" ∧
    cache_folder Fixture.cfgR Fixture.clsA1 (Params.mk "" [("a", "0")]) Fixture.fs0
      = .ok (Fixture.resC10.1, Fixture.resC10.2) ∧
    initCacheable Fixture.cfgR Fixture.clsA1 (Params.mk "" [("a", "0")]) Fixture.fs0
      = .ok Fixture.resC10.2 ∧
    Fixture.resC10.2.pathExists Fixture.resC10.1 = true ∧
    (find_cache_folder Fixture.clsA1 (Params.mk "" [("a", "0")]) Fixture.fs0
        ["root", "A"] = none →
      Fixture.resC10.2.dirExists Fixture.resC10.1 = true ∧
      Fixture.resC10.2.fileExists (Fixture.resC10.1 ++ ["params.json"]) = true) := by
  have h := C10_init_resolves_eagerly Fixture.cfgR "root" Fixture.clsA1
    (Params.mk "" [("a", "0")]) Fixture.fs0 Fixture.resC10.1 Fixture.resC10.2
    rfl (by decide)
  exact ⟨rfl, by decide, h.1, h.2.1, h.2.2⟩

/-- C3: during `compute()`, exactly the `FileNotFoundError` class of load
failure is treated as a cache miss — it falls back to `create(*args,
**kwargs)` with the tracked parameters and saves the result — while any other
exception from `load_from_file` propagates unchanged and triggers no
creation. -/
theorem C3_only_not_found_is_cache_miss {γ α : Type} (cfg : Config)
    (cls : CacheClass) (impl : Impl γ α) (p : Params) (args : γ) (fs : FS)
    (path : List String) (fs1 : FS) (e : PyErr)
    (hok : cache_folder cfg cls p fs = .ok (path, fs1))
    (hex : fs1.pathExists path = true)
    (hload : impl.loadFromFile fs1 path = .error e) :
    compute cfg cls impl p args fs =
      match e with
      | .fileNotFoundError _ =>
        .ok (impl.create args (kwargsOf cls p),
          impl.save fs1 path (impl.create args (kwargsOf cls p)))
      | _ => .error e := by
  simp only [compute, hok, hex, if_true, hload]
  cases e <;> rfl

def Fixture.resC3 : List String × FS :=
  match cache_folder Fixture.cfgR Fixture.clsE (Params.mk "t" []) Fixture.fs0 with
  | .ok r => r
  | .error _ => ([], Fixture.fs0)

theorem C3_only_not_found_is_cache_miss_witness :
    cache_folder Fixture.cfgR Fixture.clsE (Params.mk "t" []) Fixture.fs0
      = .ok (Fixture.resC3.1, Fixture.resC3.2) ∧
    Fixture.resC3.2.pathExists Fixture.resC3.1 = true ∧
    Fixture.implS.loadFromFile Fixture.resC3.2 Fixture.resC3.1
      = .error (.fileNotFoundError (pathStr (Fixture.resC3.1 ++ ["A.txt"]))) ∧
    compute Fixture.cfgR Fixture.clsE Fixture.implS (Params.mk "t" []) () Fixture.fs0
      = .ok (Fixture.implS.create () (kwargsOf Fixture.clsE (Params.mk "t" [])),
          Fixture.implS.save Fixture.resC3.2 Fixture.resC3.1
            (Fixture.implS.create () (kwargsOf Fixture.clsE (Params.mk "t" [])))) := by
  refine ⟨by decide, by decide, by decide, ?_⟩
  exact C3_only_not_found_is_cache_miss Fixture.cfgR Fixture.clsE Fixture.implS
    (Params.mk "t" []) () Fixture.fs0 Fixture.resC3.1 Fixture.resC3.2
    (.fileNotFoundError (pathStr (Fixture.resC3.1 ++ ["A.txt"])))
    (by decide) (by decide) (by decide)

/-- C6: the strict `load()` never falls back to creation: a missing payload
file resurfaces as a `FileNotFoundError` telling the caller to run
`compute()` first, and a present payload is returned as loaded. -/
theorem C6_strict_load_never_creates {γ α : Type} (cfg : Config)
    (cls : CacheClass) (impl : Impl γ α) (p : Params) (fs : FS)
    (path : List String) (fs1 : FS)
    (hok : cache_folder cfg cls p fs = .ok (path, fs1)) :
    (∀ m, impl.loadFromFile fs1 path = .error (.fileNotFoundError m) →
      load cfg cls impl p fs = .error (.fileNotFoundError
        ("File " ++ pathStr path ++ " does not exist. Please run compute() first."))) ∧
    (∀ v, impl.loadFromFile fs1 path = .ok v →
      load cfg cls impl p fs = .ok (v, fs1)) := by
  constructor
  · intro m hm
    simp [load, hok, hm]
  · intro v hv
    simp [load, hok, hv]

def Fixture.resC6 : List String × FS :=
  match cache_folder Fixture.cfgR Fixture.clsE (Params.mk "u" []) Fixture.fs0 with
  | .ok r => r
  | .error _ => ([], Fixture.fs0)

theorem C6_strict_load_never_creates_witness :
    cache_folder Fixture.cfgR Fixture.clsE (Params.mk "u" []) Fixture.fs0
      = .ok (Fixture.resC6.1, Fixture.resC6.2) ∧
    Fixture.implS.loadFromFile Fixture.resC6.2 Fixture.resC6.1
      = .error (.fileNotFoundError (pathStr (Fixture.resC6.1 ++ ["A.txt"]))) ∧
    load Fixture.cfgR Fixture.clsE Fixture.implS (Params.mk "u" []) Fixture.fs0
      = .error (.fileNotFoundError ("File " ++ pathStr Fixture.resC6.1
          ++ " does not exist. Please run compute() first.")) := by
  refine ⟨by decide, by decide, ?_⟩
  exact (C6_strict_load_never_creates Fixture.cfgR Fixture.clsE Fixture.implS
    (Params.mk "u" []) Fixture.fs0 Fixture.resC6.1 Fixture.resC6.2 (by decide)).1
    (pathStr (Fixture.resC6.1 ++ ["A.txt"])) (by decide)

/-! ### C7: idempotence of compute -/

namespace Fixture

/-- A run tag containing a newline. -/
def pNl : Params := ⟨"x\ny", []⟩

/-- A different, ordinary run tag with the same (empty) tracked fields. -/
def pZ : Params := ⟨"z", []⟩

def fsAfter1 : FS :=
  match compute cfgR clsE implS pNl () fs0 with
  | .ok r => r.2
  | .error _ => fs0

def fsAfter2 : FS :=
  match compute cfgR clsE implS pZ () fsAfter1 with
  | .ok r => r.2
  | .error _ => fs0

end Fixture

/-- C7, counterexample: when the first run tag contains a newline, the folder
it creates is never re-matched (`.` in the resolution pattern does not match
a newline), so a second, equivalent instance under another tag misses the
cache: resolution finds nothing, and its `compute()` performs creation work
again, mutating the filesystem instead of taking the load fast path. -/
theorem C7_counterexample :
    compute Fixture.cfgR Fixture.clsE Fixture.implS Fixture.pNl () Fixture.fs0
      = .ok ("", Fixture.fsAfter1) ∧
    find_cache_folder Fixture.clsE Fixture.pZ Fixture.fsAfter1 ["root", "A"]
      = none ∧
    compute Fixture.cfgR Fixture.clsE Fixture.implS Fixture.pZ () Fixture.fsAfter1
      = .ok ("", Fixture.fsAfter2) ∧
    Fixture.fsAfter2 ≠ Fixture.fsAfter1 := by decide

theorem FS.fileExists_writeFile_other (fs : FS) (q p : List String) (c : String)
    (h : q ≠ p) : (fs.writeFile q c).fileExists p = fs.fileExists p := by
  simp only [FS.fileExists, FS.writeFile, List.map_append, decide_eq_decide,
    List.mem_append]
  simp [Ne.symm h]

/-- After a miss creates `<name>[_tag1]_<hash>` and two files are written
into it (the params snapshot and a payload), resolution for any params with
the same tracked values finds exactly that folder — provided the first tag
contains no newline and no other entry matched beforehand. -/
theorem find_after_creation (cls : CacheClass) (p1 p2 : Params)
    (root pfn c1 c2 : String) (fs : FS)
    (hagree : ∀ n ∈ cls.trackedNames, p1.get n = p2.get n)
    (htag : ∀ c ∈ p1.run_tag.data, c ≠ '\n')
    (hclean : ∀ e ∈ fs.listDirNames [root, cls.name],
      reMatchFolder cls.name (CacheClass.hash p1 cls) e = false) :
    find_cache_folder cls p2
      (((fs.mkdirParents ([root, cls.name] ++ [newFolderName cls p1])).writeFile
          (([root, cls.name] ++ [newFolderName cls p1]) ++ ["params.json"]) c1).writeFile
          (([root, cls.name] ++ [newFolderName cls p1]) ++ [pfn]) c2)
      [root, cls.name] = some ([root, cls.name] ++ [newFolderName cls p1]) := by
  have hmatch : reMatchFolder cls.name (CacheClass.hash p1 cls)
      (newFolderName cls p1) = true := reMatch_newFolderName cls p1 htag
  have hnotin : ([root, cls.name] ++ [newFolderName cls p1]) ∉ fs.dirs := by
    intro hmem
    have hchild : newFolderName cls p1 ∈ fs.listDirNames [root, cls.name] := by
      simp only [FS.listDirNames, List.mem_append]
      left
      exact List.mem_filterMap.mpr ⟨_, hmem, childName_append _ _⟩
    have hfalse := hclean _ hchild
    rw [hmatch] at hfalse
    exact absurd hfalse (by simp)
  have hcn1 : childName [root, cls.name]
      (([root, cls.name] ++ [newFolderName cls p1]) ++ ["params.json"]) = none :=
    childName_eq_none_of_length _ _ (by simp)
  have hcn2 : childName [root, cls.name]
      (([root, cls.name] ++ [newFolderName cls p1]) ++ [pfn]) = none :=
    childName_eq_none_of_length _ _ (by simp)
  have hlist : (((fs.mkdirParents ([root, cls.name] ++ [newFolderName cls p1])).writeFile
      (([root, cls.name] ++ [newFolderName cls p1]) ++ ["params.json"]) c1).writeFile
      (([root, cls.name] ++ [newFolderName cls p1]) ++ [pfn]) c2).listDirNames
        [root, cls.name]
      = fs.dirs.filterMap (childName [root, cls.name]) ++ [newFolderName cls p1]
        ++ fs.files.filterMap (fun kv => childName [root, cls.name] kv.1) := by
    rw [listDirNames_writeFile _ _ _ _ hcn2, listDirNames_writeFile _ _ _ _ hcn1,
      listDirNames_mkdirParents_child fs _ _ hnotin]
  have hdirobj : (((fs.mkdirParents ([root, cls.name] ++ [newFolderName cls p1])).writeFile
      (([root, cls.name] ++ [newFolderName cls p1]) ++ ["params.json"]) c1).writeFile
      (([root, cls.name] ++ [newFolderName cls p1]) ++ [pfn]) c2).dirExists
        [root, cls.name] = true := by
    rw [FS.dirExists_writeFile, FS.dirExists_writeFile]
    have h2 := FS.dirExists_mkdirParents_take fs
      ([root, cls.name] ++ [newFolderName cls p1]) 2 (by omega) (by simp)
    simpa using h2
  have hh : CacheClass.hash p2 cls = CacheClass.hash p1 cls :=
    (CacheClass.hash_congr p1 p2 cls hagree).symm
  have hfindA : (fs.dirs.filterMap (childName [root, cls.name])).find?
      (fun entry => reMatchFolder cls.name (CacheClass.hash p2 cls) entry) = none := by
    rw [List.find?_eq_none]
    intro e he
    have hmem : e ∈ fs.listDirNames [root, cls.name] := by
      simp only [FS.listDirNames, List.mem_append]
      exact Or.inl he
    rw [hh]
    simp [hclean e hmem]
  simp only [find_cache_folder, hdirobj, Bool.not_true, Bool.false_eq_true,
    if_false, hlist]
  rw [List.find?_append, List.find?_append, hfindA, Option.none_or]
  rw [List.find?_cons_of_pos _ (by rw [hh]; exact hmatch)]
  rfl

theorem FileImpl.toImpl_loadFromFile {γ α : Type} (fi : FileImpl γ α)
    (fs : FS) (path : List String) :
    (fi.toImpl).loadFromFile fs path =
      match fs.readFile (path ++ [fi.payloadFile]) with
      | none => .error (.fileNotFoundError (pathStr (path ++ [fi.payloadFile])))
      | some s => fi.dec s := rfl

/-- C7 (amended): `compute()` is idempotent provided the first instance's run
tag contains no newline: starting from a state with no matching folder and no
stray snapshot or payload file at the new folder's location, the first call
creates and saves a payload, and a second call on any instance with the same
tracked-field values — whatever its run tag — returns the same payload,
leaves the state unchanged, and performs no creation work (its result does
not depend on the create implementation). A newline in the first tag breaks
this, since the resolution pattern cannot match it (see the counterexample).
The round-trip `dec (enc v) = v` is the serialization contract of the
concrete subclass. -/
theorem C7_compute_idempotent {γ α : Type} (cfg : Config) (root : String)
    (cls : CacheClass) (fi : FileImpl γ α) (p1 p2 : Params) (args1 args2 : γ)
    (fs : FS)
    (hroot : cfg.cacheRoot? = some root)
    (hagree : ∀ n ∈ cls.trackedNames, p1.get n = p2.get n)
    (htag : ∀ c ∈ p1.run_tag.data, c ≠ '\n')
    (hclean : ∀ e ∈ fs.listDirNames [root, cls.name],
      reMatchFolder cls.name (CacheClass.hash p1 cls) e = false)
    (hpj : fi.payloadFile ≠ "params.json")
    (hnopj : fs.fileExists ([root, cls.name, newFolderName cls p1]
      ++ ["params.json"]) = false)
    (hscratch : fs.fileExists ([root, cls.name, newFolderName cls p1]
      ++ [fi.payloadFile]) = false)
    (hdec : ∀ v : α, fi.dec (fi.enc v) = .ok v) :
    ∃ obj : α, ∃ fsAfter : FS,
      compute cfg cls fi.toImpl p1 args1 fs = .ok (obj, fsAfter) ∧
      compute cfg cls fi.toImpl p2 args2 fsAfter = .ok (obj, fsAfter) ∧
      (∀ create2 : γ → List (String × String) → α,
        compute cfg cls { fi.toImpl with create := create2 } p2 args2 fsAfter
          = .ok (obj, fsAfter)) := by
  have hmiss : find_cache_folder cls p1 fs [root, cls.name] = none :=
    find_cache_folder_eq_none _ _ _ _ hclean
  have hnopj1 : (fs.mkdirParents [root, cls.name, newFolderName cls p1]).fileExists
      [root, cls.name, newFolderName cls p1, "params.json"] = false := by
    rw [FS.fileExists_mkdirParents]
    exact hnopj
  have hcf1 : cache_folder cfg cls p1 fs
      = .ok ([root, cls.name, newFolderName cls p1],
        (fs.mkdirParents [root, cls.name, newFolderName cls p1]).writeFile
          [root, cls.name, newFolderName cls p1, "params.json"] (paramsToJson p1)) := by
    simp only [cache_folder, hroot, hmiss, List.cons_append, List.nil_append]
    rw [hnopj1]
    simp
  have hpne : ([root, cls.name, newFolderName cls p1, "params.json"] : List String)
      ≠ [root, cls.name, newFolderName cls p1] ++ [fi.payloadFile] := by
    simp [Ne.symm hpj]
  have hnopay2 : ((fs.mkdirParents [root, cls.name, newFolderName cls p1]).writeFile
      [root, cls.name, newFolderName cls p1, "params.json"] (paramsToJson p1)).readFile
      ([root, cls.name, newFolderName cls p1] ++ [fi.payloadFile]) = none := by
    rw [FS.readFile_writeFile_other _ _ _ _ hpne, FS.readFile_mkdirParents]
    exact FS.readFile_eq_none fs _ hscratch
  have hpath1 : ((fs.mkdirParents [root, cls.name, newFolderName cls p1]).writeFile
      [root, cls.name, newFolderName cls p1, "params.json"] (paramsToJson p1)).pathExists
      [root, cls.name, newFolderName cls p1] = true := by
    have hd : ((fs.mkdirParents [root, cls.name, newFolderName cls p1]).writeFile
        [root, cls.name, newFolderName cls p1, "params.json"] (paramsToJson p1)).dirExists
        [root, cls.name, newFolderName cls p1] = true := by
      rw [FS.dirExists_writeFile]
      exact FS.dirExists_mkdirParents_self _ _ (by simp)
    simp [FS.pathExists, hd]
  have hload1 : (fi.toImpl).loadFromFile
      ((fs.mkdirParents [root, cls.name, newFolderName cls p1]).writeFile
        [root, cls.name, newFolderName cls p1, "params.json"] (paramsToJson p1))
      [root, cls.name, newFolderName cls p1]
      = .error (.fileNotFoundError (pathStr
          ([root, cls.name, newFolderName cls p1] ++ [fi.payloadFile]))) := by
    rw [FileImpl.toImpl_loadFromFile, hnopay2]
  have hcomp1 : compute cfg cls fi.toImpl p1 args1 fs
      = .ok (fi.create args1 (kwargsOf cls p1),
        ((fs.mkdirParents [root, cls.name, newFolderName cls p1]).writeFile
          [root, cls.name, newFolderName cls p1, "params.json"] (paramsToJson p1)).writeFile
          ([root, cls.name, newFolderName cls p1] ++ [fi.payloadFile])
          (fi.enc (fi.create args1 (kwargsOf cls p1)))) := by
    simp only [compute, hcf1, hpath1, if_true]
    rw [hload1]
    rfl
  have hfind2 : find_cache_folder cls p2
      (((fs.mkdirParents [root, cls.name, newFolderName cls p1]).writeFile
        [root, cls.name, newFolderName cls p1, "params.json"] (paramsToJson p1)).writeFile
        ([root, cls.name, newFolderName cls p1] ++ [fi.payloadFile])
        (fi.enc (fi.create args1 (kwargsOf cls p1))))
      [root, cls.name] = some [root, cls.name, newFolderName cls p1] :=
    find_after_creation cls p1 p2 root fi.payloadFile (paramsToJson p1)
      (fi.enc (fi.create args1 (kwargsOf cls p1))) fs hagree htag hclean
  have hcf2 : cache_folder cfg cls p2
      (((fs.mkdirParents [root, cls.name, newFolderName cls p1]).writeFile
        [root, cls.name, newFolderName cls p1, "params.json"] (paramsToJson p1)).writeFile
        ([root, cls.name, newFolderName cls p1] ++ [fi.payloadFile])
        (fi.enc (fi.create args1 (kwargsOf cls p1))))
      = .ok ([root, cls.name, newFolderName cls p1],
        ((fs.mkdirParents [root, cls.name, newFolderName cls p1]).writeFile
          [root, cls.name, newFolderName cls p1, "params.json"] (paramsToJson p1)).writeFile
          ([root, cls.name, newFolderName cls p1] ++ [fi.payloadFile])
          (fi.enc (fi.create args1 (kwargsOf cls p1)))) := by
    simp only [cache_folder, hroot]
    rw [hfind2]
  have hfe2 : ((fs.mkdirParents [root, cls.name, newFolderName cls p1]).writeFile
      [root, cls.name, newFolderName cls p1, "params.json"] (paramsToJson p1)).fileExists
      ([root, cls.name, newFolderName cls p1] ++ [fi.payloadFile]) = false := by
    rw [FS.fileExists_writeFile_other _ _ _ _ hpne, FS.fileExists_mkdirParents]
    exact hscratch
  have hpath2 : (((fs.mkdirParents [root, cls.name, newFolderName cls p1]).writeFile
      [root, cls.name, newFolderName cls p1, "params.json"] (paramsToJson p1)).writeFile
      ([root, cls.name, newFolderName cls p1] ++ [fi.payloadFile])
      (fi.enc (fi.create args1 (kwargsOf cls p1)))).pathExists
      [root, cls.name, newFolderName cls p1] = true := by
    have hd : (((fs.mkdirParents [root, cls.name, newFolderName cls p1]).writeFile
        [root, cls.name, newFolderName cls p1, "params.json"] (paramsToJson p1)).writeFile
        ([root, cls.name, newFolderName cls p1] ++ [fi.payloadFile])
        (fi.enc (fi.create args1 (kwargsOf cls p1)))).dirExists
        [root, cls.name, newFolderName cls p1] = true := by
      rw [FS.dirExists_writeFile, FS.dirExists_writeFile]
      exact FS.dirExists_mkdirParents_self _ _ (by simp)
    rw [FS.pathExists, hd]
    rfl
  have hload2 : (fi.toImpl).loadFromFile
      (((fs.mkdirParents [root, cls.name, newFolderName cls p1]).writeFile
        [root, cls.name, newFolderName cls p1, "params.json"] (paramsToJson p1)).writeFile
        ([root, cls.name, newFolderName cls p1] ++ [fi.payloadFile])
        (fi.enc (fi.create args1 (kwargsOf cls p1))))
      [root, cls.name, newFolderName cls p1]
      = .ok (fi.create args1 (kwargsOf cls p1)) := by
    rw [FileImpl.toImpl_loadFromFile,
      FS.readFile_writeFile_self _ _ _ hfe2]
    exact hdec _
  have key : ∀ impl2 : Impl γ α,
      impl2.loadFromFile = (fi.toImpl).loadFromFile →
      compute cfg cls impl2 p2 args2
        (((fs.mkdirParents [root, cls.name, newFolderName cls p1]).writeFile
          [root, cls.name, newFolderName cls p1, "params.json"] (paramsToJson p1)).writeFile
          ([root, cls.name, newFolderName cls p1] ++ [fi.payloadFile])
          (fi.enc (fi.create args1 (kwargsOf cls p1))))
        = .ok (fi.create args1 (kwargsOf cls p1),
          ((fs.mkdirParents [root, cls.name, newFolderName cls p1]).writeFile
            [root, cls.name, newFolderName cls p1, "params.json"] (paramsToJson p1)).writeFile
            ([root, cls.name, newFolderName cls p1] ++ [fi.payloadFile])
            (fi.enc (fi.create args1 (kwargsOf cls p1)))) := by
    intro impl2 himpl
    simp only [compute, hcf2, hpath2, if_true]
    rw [himpl, hload2]
  exact ⟨fi.create args1 (kwargsOf cls p1), _, hcomp1, key fi.toImpl rfl,
    fun create2 => key _ rfl⟩

theorem C7_compute_idempotent_witness :
    (∀ c ∈ ("t1" : String).data, c ≠ '\n') ∧
    (∃ obj : String, ∃ fsAfter : FS,
      compute Fixture.cfgR Fixture.clsE Fixture.fiS.toImpl (Params.mk "t1" []) ()
        Fixture.fs0 = .ok (obj, fsAfter) ∧
      compute Fixture.cfgR Fixture.clsE Fixture.fiS.toImpl (Params.mk "t2" []) ()
        fsAfter = .ok (obj, fsAfter) ∧
      (∀ create2 : Unit → List (String × String) → String,
        compute Fixture.cfgR Fixture.clsE
          { Fixture.fiS.toImpl with create := create2 } (Params.mk "t2" []) ()
          fsAfter = .ok (obj, fsAfter))) :=
  ⟨by decide, C7_compute_idempotent Fixture.cfgR "root" Fixture.clsE Fixture.fiS
    (Params.mk "t1" []) (Params.mk "t2" []) () () Fixture.fs0 rfl (by decide)
    (by decide) (by decide) (by decide) (by decide) (by decide) (fun v => rfl)⟩
